import Mathlib

/-!
Shallow embedding of `src/etl.py`, a Spark batch ETL pipeline that converts a
song-metadata catalog and a user-activity event log into five analytic tables
(songs, artists, users, time, songplays).

Tables are modelled as Lean lists of typed records.  Spark dataframe
operations used by the source are modelled as list operations:
`select`/`withColumnRenamed` chains become record constructions, `filter`
becomes `List.filter`, `dropDuplicates()` (full-row dedup keeping the first
occurrence) becomes `dropDuplicates` below, the inner `join` becomes a
filtered cross product, and `monotonically_increasing_id` becomes
`monotonically_increasing_ids` over an explicit partition layout.
-/

namespace Etl

/-- Full-row deduplication keeping the first occurrence of each row, the list
model of Spark's `dropDuplicates()` with no subset key (src/etl.py lines 50,
57, 88, 120).  `seen` accumulates rows already emitted. -/
def dropDupSeen [DecidableEq α] (seen : List α) : List α → List α
  | [] => []
  | x :: xs => if x ∈ seen then dropDupSeen seen xs else x :: dropDupSeen (x :: seen) xs

/-- Spark `dropDuplicates()` on all columns: keep the first occurrence of each
distinct row. -/
def dropDuplicates [DecidableEq α] (l : List α) : List α := dropDupSeen [] l

/-- Raw song-catalog record, the fields of one JSON object under `song-data/`
(src/etl.py reads them at lines 47 and 119).  Floating-point `duration`,
`artist_latitude`, `artist_longitude` are modelled as exact rationals; JSON
`null` becomes `Option.none`. -/
structure SongRecord where
  song_id : String
  title : String
  artist_id : String
  year : Int
  duration : Rat
  artist_name : String
  artist_location : Option String
  artist_latitude : Option Rat
  artist_longitude : Option Rat
deriving DecidableEq, Repr

/-- Raw log event, the fields of one JSON object under `log_data/` that
src/etl.py uses (columns it never selects are omitted).  `ts` is the epoch
timestamp in milliseconds. -/
structure LogEvent where
  userId : String
  firstName : String
  lastName : String
  gender : String
  level : String
  ts : Nat
  song : String
  artist : String
  sessionId : Int
  location : String
  userAgent : String
  page : String
deriving DecidableEq, Repr

/-- Row of the songs table (src/etl.py line 50). -/
structure SongRow where
  song_id : String
  title : String
  artist_id : String
  year : Int
  duration : Rat
deriving DecidableEq, Repr

/-- Row of the artists table after the renames (src/etl.py lines 57-61). -/
structure ArtistRow where
  artist_id : String
  name : String
  location : Option String
  latitude : Option Rat
  longitude : Option Rat
deriving DecidableEq, Repr

/-- Row of the users table after the renames (src/etl.py lines 88-91). -/
structure UserRow where
  user_id : String
  first_name : String
  last_name : String
  gender : String
  level : String
deriving DecidableEq, Repr

/-- The songs table: select five columns from the song data, then
`dropDuplicates()` (src/etl.py line 50). -/
def songs_table (songs : List SongRecord) : List SongRow :=
  dropDuplicates (songs.map fun s =>
    { song_id := s.song_id, title := s.title, artist_id := s.artist_id
      year := s.year, duration := s.duration })

/-- The artists table: select five columns, `dropDuplicates()`, rename
(src/etl.py lines 57-61). -/
def artists_table (songs : List SongRecord) : List ArtistRow :=
  dropDuplicates (songs.map fun s =>
    { artist_id := s.artist_id, name := s.artist_name, location := s.artist_location
      latitude := s.artist_latitude, longitude := s.artist_longitude })

/-- The filter keeping only song-play actions:
`log_df.filter("page == 'NextSong'")` (src/etl.py line 85). -/
def filterNextSong (events : List LogEvent) : List LogEvent :=
  events.filter fun e => e.page == "NextSong"

/-- Projection of one filtered event onto the users-table columns, with the
renames of src/etl.py lines 89-91. -/
def userRowOf (e : LogEvent) : UserRow :=
  { user_id := e.userId, first_name := e.firstName, last_name := e.lastName
    gender := e.gender, level := e.level }

/-- The users table: select from the filtered events, `dropDuplicates()`,
rename (src/etl.py lines 88-91). -/
def users_table (events : List LogEvent) : List UserRow :=
  dropDuplicates ((filterNextSong events).map userRowOf)

end Etl

namespace Etl

/-!
Calendar derivation.  src/etl.py line 99 builds a datetime with
`datetime.fromtimestamp(x / 1000.0)` (a proleptic-Gregorian conversion of
`ts/1000` seconds under the host's fixed timezone rule) and lines 102-107
extract hour, day-of-month, ISO week, month, year (Spark `F.hour` etc.) and
Python `weekday()` (Mon=0..Sun=6) from it.  The timezone rule is modelled as
a parameter `off : Int → Int` giving the UTC-offset in seconds at a given
UTC instant, so one fixed rule (possibly with DST) covers the host-local
conversion the source performs.  The Gregorian decomposition below follows
the standard 400-year-cycle / century / 4-year-block / year / month
breakdown; the cycle is anchored at 2000-01-01, which lies 10957 days after
the 1970-01-01 epoch.
-/

/-- UTC seconds of the event: integer part of `ts / 1000.0` for `ts` in
milliseconds. -/
def utcSecs (ts : Nat) : Int := (ts : Int) / 1000

/-- Local civil seconds under timezone rule `off`. -/
def localSecs (off : Int → Int) (ts : Nat) : Int := utcSecs ts + off (utcSecs ts)

/-- Days since the 1970-01-01 epoch of the local civil time. -/
def epochDays (secs : Int) : Int := secs / 86400

/-- Second within the local civil day. -/
def secOfDay (secs : Int) : Int := secs % 86400

/-- Hour of day extracted from the conversion. -/
def hourOfSecs (secs : Int) : Int := secOfDay secs / 3600

/-- Weekday with Monday = 0 .. Sunday = 6 (Python `datetime.weekday()`);
1970-01-01 was a Thursday (= 3). -/
def weekdayNum (days : Int) : Int := (days + 3) % 7

/-- Day within the 400-year Gregorian cycle anchored at 2000-01-01 (a cycle
boundary year divisible by 400); 146097 days per cycle. -/
def dayOfCycle (days : Int) : Int := (days - 10957) % 146097

/-- Index of the 400-year cycle containing the given epoch day. -/
def cycleIndex (days : Int) : Int := (days - 10957) / 146097

/-- Century within the cycle and remaining days: the first century of a cycle
has 36525 days (its year 0 is leap, being divisible by 400), the other three
have 36524. -/
def centurySplit (doe : Int) : Int × Int :=
  if doe < 36525 then (0, doe)
  else ((doe - 36525) / 36524 + 1, (doe - 36525) % 36524)

/-- Four-year block within a century and remaining days: the first block of a
non-initial century has 1460 days (its year 00 is a skipped century leap
year), every other block has 1461. -/
def quadSplit (c : Int) (rem : Int) : Int × Int :=
  if c = 0 then (rem / 1461, rem % 1461)
  else if rem < 1460 then (0, rem)
  else ((rem - 1460) / 1461 + 1, (rem - 1460) % 1461)

/-- Year within a four-year block and day-of-year: in a block whose first
year is leap (`long = true`) that year has 366 days, all other years 365. -/
def yearSplit (long : Bool) (d : Int) : Int × Int :=
  if long then
    if d < 366 then (0, d) else ((d - 366) / 365 + 1, (d - 366) % 365)
  else (d / 365, d % 365)

/-- Whether the four-year block starting at year `100*c + 4*q` of a cycle
begins with a leap year: always, except the first block of a non-initial
century. -/
def quadIsLong (c q : Int) : Bool := c == 0 || q != 0

/-- Full year decomposition of an epoch day: `(year, isLeap, dayOfYear)` with
`dayOfYear` 0-based. -/
def civilYear (days : Int) : Int × Bool × Int :=
  let doe := dayOfCycle days
  let c := (centurySplit doe).1
  let remC := (centurySplit doe).2
  let q := (quadSplit c remC).1
  let remQ := (quadSplit c remC).2
  let long := quadIsLong c q
  let y := (yearSplit long remQ).1
  let doy := (yearSplit long remQ).2
  (2000 + 400 * cycleIndex days + 100 * c + 4 * q + y, long && y == 0, doy)

/-- Lengths of the twelve months of a year. -/
def monthLengths (leap : Bool) : List Int :=
  [31, if leap then 29 else 28, 31, 30, 31, 30, 31, 31, 30, 31, 30, 31]

/-- Walk the month-lengths table: starting at month `m`, return the month
containing day `doy` (0-based within the remaining months) and the 1-based
day of that month. -/
def monthDayGo (m : Int) : List Int → Int → Int × Int
  | [], doy => (m, doy + 1)
  | len :: rest, doy =>
      if doy < len then (m, doy + 1) else monthDayGo (m + 1) rest (doy - len)

/-- Month (1-based) and day of month (1-based) from a 0-based day-of-year. -/
def monthDayOfDoy (leap : Bool) (doy : Int) : Int × Int :=
  monthDayGo 1 (monthLengths leap) doy

/-- Month from a 0-based day-of-year. -/
def monthOfDoy (leap : Bool) (doy : Int) : Int := (monthDayOfDoy leap doy).1

/-- Day of month (1-based) from a 0-based day-of-year. -/
def dayOfMonthOfDoy (leap : Bool) (doy : Int) : Int := (monthDayOfDoy leap doy).2

/-- Weekday anchor of an ISO year: `(y + y/4 - y/100 + y/400) % 7`, the
weekday of 31 December of year `y`. -/
def isoP (z : Int) : Int := (z + z / 4 - z / 100 + z / 400) % 7

/-- Number of ISO-8601 weeks in a year: 53 when `isoP y = 4` or
`isoP (y-1) = 3`, else 52. -/
def isoWeeksInYear (y : Int) : Int :=
  if isoP y = 4 ∨ isoP (y - 1) = 3 then 53 else 52

/-- ISO-8601 week number (Spark `weekofyear`) from the year, the 1-based
day-of-year and the ISO weekday (Mon=1..Sun=7). -/
def isoWeekOfYear (y doy1 isoDow : Int) : Int :=
  if (doy1 - isoDow + 10) / 7 < 1 then isoWeeksInYear (y - 1)
  else if isoWeeksInYear y < (doy1 - isoDow + 10) / 7 then 1
  else (doy1 - isoDow + 10) / 7

/-- Row of the time table after the renames (src/etl.py lines 110-112).  The
`datetime` column holds the converted local civil time, represented as local
epoch milliseconds (`datetime.fromtimestamp` keeps the millisecond fraction
of `ts / 1000.0`).  The `weekday` column is produced by a udf with no
declared return type, so Spark renders it as a string (src/etl.py line 102);
all other derived columns are integers. -/
structure TimeRow where
  timestamp : Nat
  datetime : Int
  hour : Int
  day : Int
  week : Int
  month : Int
  year : Int
  weekday : String
deriving DecidableEq, Repr

/-- The full derivation of a time-table row from the raw millisecond
timestamp under timezone rule `off` (src/etl.py lines 99-112). -/
def deriveTimeRow (off : Int → Int) (ts : Nat) : TimeRow :=
  let secs := localSecs off ts
  let days := epochDays secs
  let y := (civilYear days).1
  let leap := (civilYear days).2.1
  let doy := (civilYear days).2.2
  { timestamp := ts
    datetime := secs * 1000 + (ts : Int) % 1000
    hour := hourOfSecs secs
    day := dayOfMonthOfDoy leap doy
    week := isoWeekOfYear y (doy + 1) (weekdayNum days + 1)
    month := monthOfDoy leap doy
    year := y
    weekday := toString (weekdayNum days) }

/-- The time table: one row per filtered event, selected and renamed from
the enriched log dataframe (src/etl.py lines 105-112); the source applies no
`dropDuplicates()` to it. -/
def time_table (off : Int → Int) (events : List LogEvent) : List TimeRow :=
  (filterNextSong events).map fun e => deriveTimeRow off e.ts

/-- Catalog projection the songplays join uses:
`songs_df.select("title", "artist_name", "song_id", "artist_id").dropDuplicates()`
(src/etl.py line 120). -/
structure CatalogRow where
  title : String
  artist_name : String
  song_id : String
  artist_id : String
deriving DecidableEq, Repr

/-- Projection of one raw catalog record onto the join columns. -/
def catalogRowOf (s : SongRecord) : CatalogRow :=
  { title := s.title, artist_name := s.artist_name
    song_id := s.song_id, artist_id := s.artist_id }

/-- The deduplicated four-column catalog the join reads (src/etl.py line 120). -/
def songsForJoin (songs : List SongRecord) : List CatalogRow :=
  dropDuplicates (songs.map catalogRowOf)

/-- Row of the songplays table before the synthetic id is added
(src/etl.py lines 125-129).  `year` and `month` are the calendar columns
derived from `ts` on the enriched log dataframe. -/
structure SongplayRow where
  start_time : Nat
  year : Int
  month : Int
  user_id : String
  level : String
  song_id : String
  artist_id : String
  session_id : Int
  location : String
  user_agent : String
deriving DecidableEq, Repr

/-- Projection of one joined (event, catalog) pair onto the songplays
columns, with the renames of src/etl.py lines 126-129. -/
def songplayRowOf (off : Int → Int) (e : LogEvent) (c : CatalogRow) : SongplayRow :=
  let days := epochDays (localSecs off e.ts)
  { start_time := e.ts
    year := (civilYear days).1
    month := monthOfDoy (civilYear days).2.1 (civilYear days).2.2
    user_id := e.userId
    level := e.level
    song_id := c.song_id
    artist_id := c.artist_id
    session_id := e.sessionId
    location := e.location
    user_agent := e.userAgent }

/-- The inner join of the filtered log events against the deduplicated
catalog on `song == title && artist == artist_name`, followed by the
projection (src/etl.py lines 122-129).  Spark's default join type is inner:
an event contributes one output row per matching catalog row and unmatched
events contribute nothing. -/
def songplays_joined (off : Int → Int) (events : List LogEvent)
    (songs : List SongRecord) : List SongplayRow :=
  (filterNextSong events).flatMap fun e =>
    (((songsForJoin songs).filter fun c =>
        e.song == c.title && e.artist == c.artist_name).map
      fun c => songplayRowOf off e c)

/-- Id assignment of Spark's `monotonically_increasing_id()`
(src/etl.py line 132): the table lives in ordered partitions; a row at
index `i` of partition `pid` receives id `pid * 2^33 + i`. -/
def assignIds (pid : Nat) : List (List α) → List (α × Nat)
  | [] => []
  | part :: rest =>
      (part.enum.map fun p => (p.2, pid * 2 ^ 33 + p.1)) ++ assignIds (pid + 1) rest

/-- Spark `monotonically_increasing_id()` over a partition layout, starting
at partition 0. -/
def monotonically_increasing_ids (parts : List (List α)) : List (α × Nat) :=
  assignIds 0 parts

/-- The songplays table with its synthetic `songplay_id` (src/etl.py line
132), over the engine-chosen partition layout `parts` of the joined rows. -/
def songplays_table (parts : List (List SongplayRow)) : List (SongplayRow × Nat) :=
  monotonically_increasing_ids parts

/-- One persisted table write: destination path, save mode and partition
columns of a `write...parquet(...)` call in src/etl.py. -/
structure TableWrite where
  path : String
  mode : String
  partitionKeys : List String
deriving DecidableEq, Repr

/-- The writes `process_song_data` performs, in order (src/etl.py lines 54
and 66). -/
def song_data_writes (output_data : String) : List TableWrite :=
  [ { path := output_data ++ "songs.parquet", mode := "overwrite"
      partitionKeys := ["year", "artist_id"] },
    { path := output_data ++ "artists.parquet", mode := "overwrite"
      partitionKeys := [] } ]

/-- The writes `process_log_data` performs, in order (src/etl.py lines 96,
116 and 137). -/
def log_data_writes (output_data : String) : List TableWrite :=
  [ { path := output_data ++ "users.parquet", mode := "overwrite"
      partitionKeys := [] },
    { path := output_data ++ "time.parquet", mode := "overwrite"
      partitionKeys := ["year", "month"] },
    { path := output_data ++ "songplays.parquet", mode := "overwrite"
      partitionKeys := ["year", "month"] } ]

/-- All writes of one pipeline invocation: `main` runs `process_song_data`
then `process_log_data` (src/etl.py lines 155-156). -/
def pipeline_writes (output_data : String) : List TableWrite :=
  song_data_writes output_data ++ log_data_writes output_data

/-!
Input reads.  Paths relative to the input root are modelled as lists of
path segments.  `process_song_data` reads the glob `song-data/A/A/A/*.json`
(src/etl.py line 46; a glob `*` matches within a single segment) and
`process_log_data` reads the single file
`log_data/2018/11/2018-11-08-events.json` (line 82) plus the same song glob
again (line 119).
-/

/-- Whether a file name ends in `.json`. -/
def endsWithJson (s : String) : Bool :=
  s.toList.reverse.take 5 == ['n', 'o', 's', 'j', '.']

/-- Whether the song-data read (glob `song-data/A/A/A/*.json`, src/etl.py
lines 46 and 119) covers the file at the given segment path. -/
def readsSongPath (p : List String) : Bool :=
  match p with
  | [d0, d1, d2, d3, f] =>
      d0 == "song-data" && d1 == "A" && d2 == "A" && d3 == "A" && endsWithJson f
  | _ => false

/-- Whether the log-data read (the single path
`log_data/2018/11/2018-11-08-events.json`, src/etl.py line 82) covers the
file at the given segment path. -/
def readsLogPath (p : List String) : Bool :=
  p == ["log_data", "2018", "11", "2018-11-08-events.json"]

/-- Whether a segment path is a JSON file somewhere under the `song-data/`
source tree. -/
def inSongDataTree (p : List String) : Bool :=
  match p with
  | d0 :: rest =>
      d0 == "song-data" &&
        (match rest.getLast? with
         | some f => endsWithJson f
         | none => false)
  | [] => false

/-- Whether a segment path is a JSON file somewhere under the `log_data/`
source tree. -/
def inLogDataTree (p : List String) : Bool :=
  match p with
  | d0 :: rest =>
      d0 == "log_data" &&
        (match rest.getLast? with
         | some f => endsWithJson f
         | none => false)
  | [] => false

/-!
Process environment.  src/etl.py lines 9-13 run at module import: they read
`dl.cfg` and write the two AWS credentials into `os.environ`.  The
environment is modelled as an association list in which `setEnv` replaces
any previous binding; the three functions `process_song_data`,
`process_log_data` and `main` contain no reference to `os.environ`, so the
script's only environment effect is the top-level one.
-/

/-- Set an environment variable, replacing any existing binding. -/
def setEnv (env : List (String × String)) (k v : String) : List (String × String) :=
  (k, v) :: env.filter fun kv => kv.1 != k

/-- Read an environment variable. -/
def getEnv (env : List (String × String)) (k : String) : Option String :=
  (env.find? fun kv => kv.1 == k).map fun kv => kv.2

/-- The `[AWS]` section of `dl.cfg` (src/etl.py lines 9-10). -/
structure DlCfg where
  aws_access_key_id : String
  aws_secret_access_key : String
deriving DecidableEq, Repr

/-- Environment effect of the module top level (src/etl.py lines 12-13). -/
def moduleTopLevelEnv (cfg : DlCfg) (env : List (String × String)) :
    List (String × String) :=
  setEnv (setEnv env ("AWS_ACCESS_KEY_ID") cfg.aws_access_key_id)
    ("AWS_SECRET_ACCESS_KEY") cfg.aws_secret_access_key

/-- Environment after executing the script: the top-level mutation runs at
import, and `main`, `process_song_data` and `process_log_data` never touch
the environment again. -/
def runScriptEnv (cfg : DlCfg) (env : List (String × String)) :
    List (String × String) :=
  moduleTopLevelEnv cfg env

theorem mem_dropDupSeen [DecidableEq α] (seen : List α) (l : List α) (a : α) :
    a ∈ dropDupSeen seen l ↔ a ∈ l ∧ a ∉ seen := by
  induction l generalizing seen with
  | nil => simp [dropDupSeen]
  | cons x xs ih =>
    by_cases hx : x ∈ seen
    · rw [dropDupSeen, if_pos hx, ih]
      constructor
      · rintro ⟨h1, h2⟩; exact ⟨List.mem_cons_of_mem _ h1, h2⟩
      · rintro ⟨h1, h2⟩
        rcases List.mem_cons.mp h1 with rfl | h1
        · exact absurd hx h2
        · exact ⟨h1, h2⟩
    · rw [dropDupSeen, if_neg hx]
      constructor
      · intro h
        rcases List.mem_cons.mp h with rfl | h
        · exact ⟨List.mem_cons_self _ _, hx⟩
        · rcases (ih (x :: seen)).mp h with ⟨h1, h2⟩
          exact ⟨List.mem_cons_of_mem _ h1, fun hs => h2 (List.mem_cons_of_mem _ hs)⟩
      · rintro ⟨h1, h2⟩
        rcases List.mem_cons.mp h1 with rfl | h1
        · exact List.mem_cons_self _ _
        · by_cases hax : a = x
          · subst hax; exact List.mem_cons_self _ _
          · refine List.mem_cons_of_mem _ ((ih (x :: seen)).mpr ⟨h1, fun hs => ?_⟩)
            rcases List.mem_cons.mp hs with h | h
            · exact hax h
            · exact h2 h

theorem mem_dropDuplicates [DecidableEq α] (l : List α) (a : α) :
    a ∈ dropDuplicates l ↔ a ∈ l := by
  rw [dropDuplicates, mem_dropDupSeen]
  simp

theorem nodup_dropDupSeen [DecidableEq α] (seen : List α) (l : List α) :
    (dropDupSeen seen l).Nodup := by
  induction l generalizing seen with
  | nil => simp [dropDupSeen]
  | cons x xs ih =>
    by_cases hx : x ∈ seen
    · rw [dropDupSeen, if_pos hx]; exact ih seen
    · rw [dropDupSeen, if_neg hx]
      refine List.nodup_cons.mpr ⟨fun hmem => ?_, ih (x :: seen)⟩
      exact ((mem_dropDupSeen _ _ _).mp hmem).2 (List.mem_cons_self _ _)

theorem dropDupSeen_eq_self [DecidableEq α] (seen : List α) (l : List α)
    (hnd : l.Nodup) (hdis : ∀ x ∈ l, x ∉ seen) : dropDupSeen seen l = l := by
  induction l generalizing seen with
  | nil => rfl
  | cons x xs ih =>
    rw [dropDupSeen, if_neg (hdis x (List.mem_cons_self _ _))]
    rcases List.nodup_cons.mp hnd with ⟨hx, hxs⟩
    rw [ih (x :: seen) hxs]
    intro y hy hmem
    rcases List.mem_cons.mp hmem with rfl | h
    · exact hx hy
    · exact hdis y (List.mem_cons_of_mem _ hy) h

theorem dropDuplicates_eq_self_of_nodup [DecidableEq α] (l : List α)
    (hnd : l.Nodup) : dropDuplicates l = l :=
  dropDupSeen_eq_self [] l hnd (by simp)

theorem dayOfCycle_bounds (days : Int) :
    0 ≤ dayOfCycle days ∧ dayOfCycle days ≤ 146096 := by
  unfold dayOfCycle; omega

theorem centurySplit_bounds (doe : Int) (h0 : 0 ≤ doe) (h1 : doe ≤ 146096) :
    0 ≤ (centurySplit doe).1 ∧ (centurySplit doe).1 ≤ 3 ∧
    0 ≤ (centurySplit doe).2 ∧ (centurySplit doe).2 ≤ 36524 ∧
    ((centurySplit doe).1 ≠ 0 → (centurySplit doe).2 ≤ 36523) := by
  unfold centurySplit
  split <;> simp <;> omega

theorem quadSplit_bounds (c rem : Int) (h0 : 0 ≤ rem) (h1 : rem ≤ 36524)
    (h2 : c ≠ 0 → rem ≤ 36523) :
    0 ≤ (quadSplit c rem).1 ∧ (quadSplit c rem).1 ≤ 24 ∧
    0 ≤ (quadSplit c rem).2 ∧ (quadSplit c rem).2 ≤ 1460 ∧
    (quadIsLong c (quadSplit c rem).1 = false → (quadSplit c rem).2 ≤ 1459) := by
  unfold quadSplit quadIsLong
  split
  · next hc =>
    subst hc; simp
    refine ⟨by omega, by omega, by omega, by omega⟩
  · next hc =>
    have hc' : (c == 0) = false := by simpa using hc
    split
    · simp [hc']
      omega
    · simp [hc']
      constructor
      · omega
      constructor
      · omega
      constructor
      · omega
      constructor
      · omega
      · intro hq; omega

theorem yearSplit_bounds (long : Bool) (d : Int) (h0 : 0 ≤ d)
    (hlong : long = true → d ≤ 1460) (hshort : long = false → d ≤ 1459) :
    0 ≤ (yearSplit long d).1 ∧ (yearSplit long d).1 ≤ 3 ∧
    0 ≤ (yearSplit long d).2 ∧ (yearSplit long d).2 ≤ 365 ∧
    ((long && (yearSplit long d).1 == 0) = false → (yearSplit long d).2 ≤ 364) := by
  unfold yearSplit
  cases long with
  | false =>
    simp at hshort
    simp
    omega
  | true =>
    simp at hlong
    simp
    split
    · simp
      omega
    · simp
      refine ⟨by omega, by omega, by omega, by omega, by omega⟩

theorem civilYear_doy_bounds (days : Int) :
    0 ≤ (civilYear days).2.2 ∧ (civilYear days).2.2 ≤ 365 ∧
    ((civilYear days).2.1 = false → (civilYear days).2.2 ≤ 364) := by
  have hdoe := dayOfCycle_bounds days
  have hc := centurySplit_bounds (dayOfCycle days) hdoe.1 hdoe.2
  have hq := quadSplit_bounds (centurySplit (dayOfCycle days)).1
    (centurySplit (dayOfCycle days)).2 hc.2.2.1 hc.2.2.2.1 hc.2.2.2.2
  have hy := yearSplit_bounds
    (quadIsLong (centurySplit (dayOfCycle days)).1
      (quadSplit (centurySplit (dayOfCycle days)).1 (centurySplit (dayOfCycle days)).2).1)
    (quadSplit (centurySplit (dayOfCycle days)).1 (centurySplit (dayOfCycle days)).2).2
    hq.2.2.1 (fun _ => hq.2.2.2.1) hq.2.2.2.2
  unfold civilYear
  exact ⟨hy.2.2.1, hy.2.2.2.1, hy.2.2.2.2⟩

theorem monthDayGo_bounds (lens : List Int) (m doy : Int) (h0 : 0 ≤ doy)
    (hsum : doy < lens.sum) (hlen : ∀ l ∈ lens, l ≤ 31) :
    m ≤ (monthDayGo m lens doy).1 ∧
    (monthDayGo m lens doy).1 ≤ m + lens.length - 1 ∧
    1 ≤ (monthDayGo m lens doy).2 ∧ (monthDayGo m lens doy).2 ≤ 31 := by
  induction lens generalizing m doy with
  | nil => simp at hsum; omega
  | cons len rest ih =>
    rw [monthDayGo]
    have hl31 : len ≤ 31 := hlen len (List.mem_cons_self _ _)
    rw [List.sum_cons] at hsum
    split
    · next h => simp; omega
    · next h =>
      have hrec := ih (m + 1) (doy - len) (by omega) (by omega)
        (fun l hl => hlen l (List.mem_cons_of_mem _ hl))
      simp only [List.length_cons]
      omega

theorem monthDayOfDoy_bounds (leap : Bool) (doy : Int) (h0 : 0 ≤ doy)
    (h1 : doy ≤ 365) (h2 : leap = false → doy ≤ 364) :
    1 ≤ (monthDayOfDoy leap doy).1 ∧ (monthDayOfDoy leap doy).1 ≤ 12 ∧
    1 ≤ (monthDayOfDoy leap doy).2 ∧ (monthDayOfDoy leap doy).2 ≤ 31 := by
  have hsum : doy < (monthLengths leap).sum := by
    cases leap with
    | false =>
      have : (monthLengths false).sum = 365 := by decide
      simp at h2
      omega
    | true =>
      have : (monthLengths true).sum = 366 := by decide
      omega
  have hlen : ∀ l ∈ monthLengths leap, l ≤ 31 := by cases leap <;> decide
  have hb := monthDayGo_bounds (monthLengths leap) 1 doy h0 hsum hlen
  have hlength : (monthLengths leap).length = 12 := by cases leap <;> decide
  unfold monthDayOfDoy
  omega

theorem isoWeeksInYear_cases (y : Int) :
    isoWeeksInYear y = 52 ∨ isoWeeksInYear y = 53 := by
  unfold isoWeeksInYear
  split <;> simp

theorem isoWeekOfYear_bounds (y doy1 isoDow : Int) (h0 : 1 ≤ doy1)
    (h1 : doy1 ≤ 366) (h2 : 1 ≤ isoDow) (h3 : isoDow ≤ 7) :
    1 ≤ isoWeekOfYear y doy1 isoDow ∧ isoWeekOfYear y doy1 isoDow ≤ 53 := by
  have hprev := isoWeeksInYear_cases (y - 1)
  have hcur := isoWeeksInYear_cases y
  unfold isoWeekOfYear
  split
  · omega
  · split <;> omega

theorem hourOfSecs_bounds (secs : Int) :
    0 ≤ hourOfSecs secs ∧ hourOfSecs secs ≤ 23 := by
  unfold hourOfSecs secOfDay; omega

theorem weekdayNum_bounds (days : Int) :
    0 ≤ weekdayNum days ∧ weekdayNum days ≤ 6 := by
  unfold weekdayNum; omega

/-- C5: for every retained event, the time table's derived fields are a pure
deterministic function of the integer millisecond `ts`: the datetime comes
from `seconds = ts/1000` under the one fixed timezone rule `off`, and hour
(0-23), day (1-31), week (ISO week number, 1-53), month (1-12), year and
weekday (Mon=0..Sun=6, rendered by the udf) are all computed from that same
conversion, so equal `ts` values always yield equal derived fields. -/
theorem c5_time_fields_deterministic (off : Int → Int) (ts₁ ts₂ : Nat)
    (h : ts₁ = ts₂) :
    deriveTimeRow off ts₁ = deriveTimeRow off ts₂ ∧
    (deriveTimeRow off ts₁).datetime =
      localSecs off ts₁ * 1000 + (ts₁ : Int) % 1000 ∧
    (deriveTimeRow off ts₁).hour = hourOfSecs (localSecs off ts₁) ∧
    0 ≤ (deriveTimeRow off ts₁).hour ∧ (deriveTimeRow off ts₁).hour ≤ 23 ∧
    1 ≤ (deriveTimeRow off ts₁).day ∧ (deriveTimeRow off ts₁).day ≤ 31 ∧
    1 ≤ (deriveTimeRow off ts₁).week ∧ (deriveTimeRow off ts₁).week ≤ 53 ∧
    1 ≤ (deriveTimeRow off ts₁).month ∧ (deriveTimeRow off ts₁).month ≤ 12 ∧
    (deriveTimeRow off ts₁).year = (civilYear (epochDays (localSecs off ts₁))).1 ∧
    ∃ n : Int, 0 ≤ n ∧ n ≤ 6 ∧ (deriveTimeRow off ts₁).weekday = toString n := by
  subst h
  have hdoy := civilYear_doy_bounds (epochDays (localSecs off ts₁))
  have hmd := monthDayOfDoy_bounds (civilYear (epochDays (localSecs off ts₁))).2.1
    (civilYear (epochDays (localSecs off ts₁))).2.2 hdoy.1 hdoy.2.1 hdoy.2.2
  have hh := hourOfSecs_bounds (localSecs off ts₁)
  have hw := weekdayNum_bounds (epochDays (localSecs off ts₁))
  have hwk := isoWeekOfYear_bounds (civilYear (epochDays (localSecs off ts₁))).1
    ((civilYear (epochDays (localSecs off ts₁))).2.2 + 1)
    (weekdayNum (epochDays (localSecs off ts₁)) + 1)
    (by omega) (by omega) (by omega) (by omega)
  exact ⟨rfl, rfl, rfl, hh.1, hh.2, hmd.2.2.1, hmd.2.2.2, hwk.1, hwk.2,
    hmd.1, hmd.2.1, rfl,
    ⟨weekdayNum (epochDays (localSecs off ts₁)), hw.1, hw.2, rfl⟩⟩

/-- Closed instance of `c5_time_fields_deterministic` at the timestamp of
spec Scenario B under the UTC rule. -/
theorem c5_time_fields_deterministic_witness :
    deriveTimeRow (fun _ => 0) 1541640000000 = deriveTimeRow (fun _ => 0) 1541640000000 ∧
    1 ≤ (deriveTimeRow (fun _ => 0) 1541640000000).month ∧
    (deriveTimeRow (fun _ => 0) 1541640000000).month ≤ 12 :=
  ⟨(c5_time_fields_deterministic (fun _ => 0) 1541640000000 1541640000000 rfl).1,
   (c5_time_fields_deterministic (fun _ => 0) 1541640000000 1541640000000 rfl).2.2.2.2.2.2.2.2.2.1,
   (c5_time_fields_deterministic (fun _ => 0) 1541640000000 1541640000000 rfl).2.2.2.2.2.2.2.2.2.2.1⟩

/-- C8: full-row-equality deduplication is idempotent:
`dedup (dedup T) = dedup T` for every table `T`. -/
theorem c8_dropDuplicates_idempotent {α : Type} [DecidableEq α] (l : List α) :
    dropDuplicates (dropDuplicates l) = dropDuplicates l :=
  dropDuplicates_eq_self_of_nodup (dropDuplicates l) (nodup_dropDupSeen [] l)

/-- Closed instance of `c8_dropDuplicates_idempotent` on a small table. -/
theorem c8_dropDuplicates_idempotent_witness :
    dropDuplicates (dropDuplicates ([1, 2, 1] : List Nat)) =
      dropDuplicates ([1, 2, 1] : List Nat) :=
  c8_dropDuplicates_idempotent [1, 2, 1]

/-- C10: the `weekday` column of every derived time row is the string
rendering of the weekday number (one of "0".."6"), produced by the
untyped udf, not an integer like the other derived calendar fields. -/
theorem c10_weekday_is_string (off : Int → Int) (ts : Nat) :
    (deriveTimeRow off ts).weekday =
      toString (weekdayNum (epochDays (localSecs off ts))) ∧
    ∃ n : Int, 0 ≤ n ∧ n ≤ 6 ∧ (deriveTimeRow off ts).weekday = toString n := by
  have hw := weekdayNum_bounds (epochDays (localSecs off ts))
  exact ⟨rfl, ⟨weekdayNum (epochDays (localSecs off ts)), hw.1, hw.2, rfl⟩⟩

/-- Retained event of spec Scenario B: `ts = 1541640000000`, page
`NextSong`. -/
def evB1 : LogEvent :=
  { userId := "15", firstName := "Lily", lastName := "Koch", gender := "F"
    level := "paid", ts := 1541640000000, song := "Greece 2000"
    artist := "Three Drives", sessionId := 583
    location := "Chicago-Naperville-Elgin, IL-IN-WI"
    userAgent := "Mozilla/5.0", page := "NextSong" }

/-- Second event of spec Scenario B: same `ts`, different session id. -/
def evB2 : LogEvent := { evB1 with sessionId := 818 }

/-- C1 as stated fails on the code: `time_table` applies no
`dropDuplicates()`, so two retained events sharing `ts = 1541640000000`
yield two rows for that timestamp, not one. -/
theorem c1_counterexample :
    evB1.page = "NextSong" ∧ evB2.page = "NextSong" ∧ evB1.ts = evB2.ts ∧
    (time_table (fun _ => 0) [evB1, evB2]).countP
      (fun r => r.timestamp == 1541640000000) = 2 ∧
    ¬ (time_table (fun _ => 0) [evB1, evB2]).countP
      (fun r => r.timestamp == 1541640000000) = 1 := by
  refine ⟨rfl, rfl, rfl, ?_, ?_⟩ <;> decide

/-- C1 amended: the time table has exactly one row per retained event, not
one per distinct timestamp; the number of rows carrying timestamp `t`
equals the number of retained events with `ts = t`, so duplicated
timestamps yield duplicated (identical) rows. -/
theorem c1_time_rows_per_event (off : Int → Int) (events : List LogEvent)
    (t : Nat) :
    (time_table off events).length = (filterNextSong events).length ∧
    (time_table off events).countP (fun r => r.timestamp == t) =
      (filterNextSong events).countP (fun e => e.ts == t) := by
  refine ⟨by simp [time_table], ?_⟩
  rw [time_table, List.countP_map]
  rfl

/-- Membership in the NextSong filter output. -/
theorem mem_filterNextSong (events : List LogEvent) (e : LogEvent) :
    e ∈ filterNextSong events ↔ e ∈ events ∧ e.page = "NextSong" := by
  rw [filterNextSong, List.mem_filter]
  simp

/-- C4: every row of the users, time and songplays tables derives from a
log event whose `page` field is exactly "NextSong". -/
theorem c4_rows_only_from_nextsong (off : Int → Int) (events : List LogEvent)
    (songs : List SongRecord) :
    (∀ u ∈ users_table events,
      ∃ e, e ∈ events ∧ e.page = "NextSong" ∧ u = userRowOf e) ∧
    (∀ t ∈ time_table off events,
      ∃ e, e ∈ events ∧ e.page = "NextSong" ∧ t = deriveTimeRow off e.ts) ∧
    (∀ r ∈ songplays_joined off events songs,
      ∃ e, e ∈ events ∧ e.page = "NextSong" ∧
        ∃ c, c ∈ songsForJoin songs ∧ r = songplayRowOf off e c) := by
  refine ⟨?_, ?_, ?_⟩
  · intro u hu
    rw [users_table, mem_dropDuplicates, List.mem_map] at hu
    obtain ⟨e, he, rfl⟩ := hu
    rw [mem_filterNextSong] at he
    exact ⟨e, he.1, he.2, rfl⟩
  · intro t ht
    rw [time_table, List.mem_map] at ht
    obtain ⟨e, he, rfl⟩ := ht
    rw [mem_filterNextSong] at he
    exact ⟨e, he.1, he.2, rfl⟩
  · intro r hr
    rw [songplays_joined, List.mem_flatMap] at hr
    obtain ⟨e, he, hr⟩ := hr
    rw [mem_filterNextSong] at he
    rw [List.mem_map] at hr
    obtain ⟨c, hc, rfl⟩ := hr
    rw [List.mem_filter] at hc
    exact ⟨e, he.1, he.2, c, hc.1, rfl⟩

/-- Closed instance of `c4_rows_only_from_nextsong`: the single user row
produced by one NextSong event traces back to that event. -/
theorem c4_rows_only_from_nextsong_witness :
    ∃ e, e ∈ [evB1] ∧ e.page = "NextSong" ∧ userRowOf evB1 = userRowOf e :=
  (c4_rows_only_from_nextsong (fun _ => 0) [evB1] []).1 (userRowOf evB1)
    (by decide)

/-- C3: the songplays fact table is an inner join: a row exists exactly for
the (filtered event, catalog row) pairs agreeing on title and artist name
under exact case-sensitive string equality, the emitted (song_id,
artist_id) pair comes from that matching catalog row, unmatched events
contribute nothing, and every catalog join row is the projection of a raw
catalog record. -/
theorem c3_songplays_inner_join (off : Int → Int) (events : List LogEvent)
    (songs : List SongRecord) (r : SongplayRow) :
    (r ∈ songplays_joined off events songs ↔
      ∃ e, e ∈ filterNextSong events ∧ ∃ c, c ∈ songsForJoin songs ∧
        e.song = c.title ∧ e.artist = c.artist_name ∧
        r = songplayRowOf off e c) ∧
    (∀ c : CatalogRow, c ∈ songsForJoin songs ↔
      ∃ s, s ∈ songs ∧ c = catalogRowOf s) := by
  constructor
  · rw [songplays_joined, List.mem_flatMap]
    constructor
    · rintro ⟨e, he, hr⟩
      rw [List.mem_map] at hr
      obtain ⟨c, hc, rfl⟩ := hr
      rw [List.mem_filter] at hc
      have hmatch := hc.2
      simp only [Bool.and_eq_true, beq_iff_eq] at hmatch
      exact ⟨e, he, c, hc.1, hmatch.1, hmatch.2, rfl⟩
    · rintro ⟨e, he, c, hc, h1, h2, rfl⟩
      refine ⟨e, he, ?_⟩
      rw [List.mem_map]
      refine ⟨c, ?_, rfl⟩
      rw [List.mem_filter]
      exact ⟨hc, by simp [h1, h2]⟩
  · intro c
    rw [songsForJoin, mem_dropDuplicates, List.mem_map]
    constructor
    · rintro ⟨s, hs, rfl⟩; exact ⟨s, hs, rfl⟩
    · rintro ⟨s, hs, rfl⟩; exact ⟨s, hs, rfl⟩

/-- Catalog record matching evB1 on (title, artist_name). -/
def songRecB : SongRecord :=
  { song_id := "SOHKNRJ12A6701D1F8", title := "Greece 2000"
    artist_id := "AR10USD1187B99F3F1", year := 1997, duration := 289
    artist_name := "Three Drives", artist_location := some ("Netherlands")
    artist_latitude := none, artist_longitude := none }

/-- Closed instance of `c3_songplays_inner_join`: the matching event and
catalog record of Scenario B produce their joined songplay row. -/
theorem c3_songplays_inner_join_witness :
    songplayRowOf (fun _ => 0) evB1 (catalogRowOf songRecB) ∈
      songplays_joined (fun _ => 0) [evB1] [songRecB] :=
  (c3_songplays_inner_join (fun _ => 0) [evB1] [songRecB] _).1.mpr
    ⟨evB1, by decide, catalogRowOf songRecB, by decide, rfl, rfl, rfl⟩

theorem assignIds_snd_lower {α : Type} (pid : Nat) (parts : List (List α)) :
    ∀ x ∈ (assignIds pid parts).map Prod.snd, pid * 2 ^ 33 ≤ x := by
  induction parts generalizing pid with
  | nil => intro x hx; simp [assignIds] at hx
  | cons part rest ih =>
    intro x hx
    rw [assignIds, List.map_append, List.mem_append] at hx
    rcases hx with hx | hx
    · rw [List.map_map, List.mem_map] at hx
      obtain ⟨p, hp, rfl⟩ := hx
      exact Nat.le_add_right _ _
    · have hlow := ih (pid + 1) x hx
      omega

theorem assignIds_ids_pairwise {α : Type} (parts : List (List α)) (pid : Nat)
    (h : ∀ p ∈ parts, p.length ≤ 2 ^ 33) :
    ((assignIds pid parts).map Prod.snd).Pairwise (· < ·) := by
  induction parts generalizing pid with
  | nil => simp [assignIds]
  | cons part rest ih =>
    rw [assignIds, List.map_append, List.pairwise_append]
    refine ⟨?_, ih (pid + 1) (fun q hq => h q (List.mem_cons_of_mem _ hq)), ?_⟩
    · rw [List.map_map, List.pairwise_map]
      have h1 : (part.enum.map Prod.fst).Pairwise (· < ·) := by
        rw [List.enum_map_fst]; exact List.pairwise_lt_range _
      rw [List.pairwise_map] at h1
      exact h1.imp fun hpq => Nat.add_lt_add_left hpq _
    · intro x hx y hy
      rw [List.map_map, List.mem_map] at hx
      obtain ⟨p, hp, rfl⟩ := hx
      have hyl := assignIds_snd_lower (pid + 1) rest y hy
      have hpl : p.1 < part.length := by
        have hpm : p.1 ∈ part.enum.map Prod.fst := List.mem_map_of_mem _ hp
        rw [List.enum_map_fst, List.mem_range] at hpm
        exact hpm
      have hlen := h part (List.mem_cons_self _ _)
      show pid * 2 ^ 33 + p.1 < y
      omega

/-- C6: within one run, the `songplay_id` values assigned by
`monotonically_increasing_id` over any partition layout (each partition
holding at most 2^33 rows, Spark's documented record limit) are strictly
increasing in assignment order and pairwise distinct. -/
theorem c6_songplay_ids_distinct_increasing (parts : List (List SongplayRow))
    (h : ∀ p ∈ parts, p.length ≤ 2 ^ 33) :
    ((songplays_table parts).map Prod.snd).Pairwise (· < ·) ∧
    ((songplays_table parts).map Prod.snd).Nodup := by
  have hp := assignIds_ids_pairwise parts 0 h
  exact ⟨hp, hp.imp fun hlt => Nat.ne_of_lt hlt⟩

/-- Closed instance of `c6_songplay_ids_distinct_increasing` on a two-
partition layout of one songplay row each. -/
theorem c6_songplay_ids_distinct_increasing_witness :
    ((songplays_table
        [[songplayRowOf (fun _ => 0) evB1 (catalogRowOf songRecB)],
         [songplayRowOf (fun _ => 0) evB1 (catalogRowOf songRecB)]]).map
      Prod.snd).Pairwise (· < ·) :=
  (c6_songplay_ids_distinct_increasing _ (by decide)).1

theorem getEnv_setEnv_same (env : List (String × String)) (k v : String) :
    getEnv (setEnv env k v) k = some v := by
  simp [getEnv, setEnv, List.find?]

theorem find?_filter_ne (env : List (String × String)) (k k' : String)
    (h : k' ≠ k) :
    List.find? (fun kv => kv.1 == k') (env.filter fun kv => kv.1 != k) =
      List.find? (fun kv => kv.1 == k') env := by
  induction env with
  | nil => rfl
  | cons a rest ih =>
    rw [List.filter_cons]
    by_cases ha : a.1 = k
    · have hcond : (a.1 != k) = false := by simp [ha]
      rw [hcond]
      simp only [Bool.false_eq_true, if_false]
      have hhead : (a.1 == k') = false := by
        simp [ha]; exact fun he => h he.symm
      rw [ih, List.find?]
      rw [hhead]
    · have hcond : (a.1 != k) = true := by simp [ha]
      rw [hcond]
      simp only [if_true]
      rw [List.find?, List.find?]
      by_cases hk' : a.1 = k'
      · simp [hk']
      · have hhead : (a.1 == k') = false := by simp [hk']
        rw [hhead, ih]

theorem getEnv_setEnv_ne (env : List (String × String)) (k v k' : String)
    (h : k' ≠ k) : getEnv (setEnv env k v) k' = getEnv env k' := by
  have hhead : ((k, v).1 == k') = false := by
    simp; exact fun he => h he.symm
  rw [getEnv, setEnv, List.find?, hhead, find?_filter_ne env k k' h, getEnv]

/-- C7 as stated fails on the code: executing the script mutates the
process environment — the module top level (src/etl.py lines 12-13) writes
the AWS credentials into `os.environ`, so an initially empty environment is
no longer empty afterwards. -/
theorem c7_counterexample :
    runScriptEnv ⟨"AKIAEXAMPLE", "SECRETEXAMPLE"⟩ [] ≠ [] ∧
    getEnv [] "AWS_ACCESS_KEY_ID" = none ∧
    getEnv (runScriptEnv ⟨"AKIAEXAMPLE", "SECRETEXAMPLE"⟩ [])
      "AWS_ACCESS_KEY_ID" = some "AKIAEXAMPLE" := by
  refine ⟨?_, rfl, ?_⟩ <;> decide

/-- C7 amended: the script's environment mutation is exactly the top-level
write of the two AWS credential variables taken from `dl.cfg`; every other
environment variable is left unchanged, and the transform functions
themselves perform no further mutation (the model's script effect is the
module top level alone).  Credentials thus flow ambiently through the
environment rather than as an explicitly passed configuration value. -/
theorem c7_env_mutation_scoped (cfg : DlCfg) (env : List (String × String)) :
    getEnv (runScriptEnv cfg env) "AWS_ACCESS_KEY_ID" =
      some cfg.aws_access_key_id ∧
    getEnv (runScriptEnv cfg env) "AWS_SECRET_ACCESS_KEY" =
      some cfg.aws_secret_access_key ∧
    ∀ k, k ≠ "AWS_ACCESS_KEY_ID" → k ≠ "AWS_SECRET_ACCESS_KEY" →
      getEnv (runScriptEnv cfg env) k = getEnv env k := by
  refine ⟨?_, ?_, ?_⟩
  · rw [runScriptEnv, moduleTopLevelEnv,
      getEnv_setEnv_ne _ _ _ _ (by decide), getEnv_setEnv_same]
  · rw [runScriptEnv, moduleTopLevelEnv, getEnv_setEnv_same]
  · intro k h1 h2
    rw [runScriptEnv, moduleTopLevelEnv, getEnv_setEnv_ne _ _ _ _ h2,
      getEnv_setEnv_ne _ _ _ _ h1]

/-- Closed instance of `c7_env_mutation_scoped`: an unrelated variable
survives the script untouched. -/
theorem c7_env_mutation_scoped_witness :
    getEnv (runScriptEnv ⟨"A", "S"⟩ [("PATH", "/usr/bin")]) ("PATH") =
      some ("/usr/bin") :=
  (c7_env_mutation_scoped ⟨"A", "S"⟩ [("PATH", "/usr/bin")]).2.2 ("PATH")
    (by decide) (by decide)

/-- C9: every table write uses full-overwrite mode, and the partition keys
are songs → (year, artist_id), artists → none, users → none,
time → (year, month), songplays → (year, month). -/
theorem c9_write_plan (out : String) :
    (∀ w ∈ pipeline_writes out, w.mode = "overwrite") ∧
    (pipeline_writes out).map (fun w => (w.path, w.partitionKeys)) =
      [(out ++ "songs.parquet", ["year", "artist_id"]),
       (out ++ "artists.parquet", ([] : List String)),
       (out ++ "users.parquet", ([] : List String)),
       (out ++ "time.parquet", ["year", "month"]),
       (out ++ "songplays.parquet", ["year", "month"])] := by
  constructor
  · intro w hw
    simp only [pipeline_writes, song_data_writes, log_data_writes,
      List.mem_append, List.mem_cons, List.not_mem_nil, or_false] at hw
    rcases hw with (rfl | rfl) | (rfl | rfl | rfl) <;> rfl
  · rfl

/-- Closed instance of `c9_write_plan`: the songs write at the production
output root uses overwrite mode. -/
theorem c9_write_plan_witness :
    ({ path := "s3a://pm-sparkify-bucket/" ++ "songs.parquet"
       mode := "overwrite"
       partitionKeys := ["year", "artist_id"] } : TableWrite).mode =
      "overwrite" :=
  (c9_write_plan ("s3a://pm-sparkify-bucket/")).1 _ (by decide)

/-- C2 as stated fails on the code: the song read covers only the
`song-data/A/A/A` subtree (src/etl.py line 46), missing e.g.
`song-data/A/B/C/TRABCAJ128F42A0000.json`, and the log read covers only the
single file `log_data/2018/11/2018-11-08-events.json` (line 82), missing
e.g. the 2018-11-09 file. -/
theorem c2_counterexample :
    ¬ ((∀ p, inSongDataTree p = true → readsSongPath p = true) ∧
       (∀ p, inLogDataTree p = true → readsLogPath p = true)) := by
  intro h
  exact absurd
    (h.1 ["song-data", "A", "B", "C", "TRABCAJ128F42A0000.json"] (by decide))
    (by decide)

/-- C2 amended: each invocation reads fixed proper subsets of the two
source trees — song files only directly under `song-data/A/A/A`, and the
single log file `log_data/2018/11/2018-11-08-events.json`; every path read
lies in the corresponding source tree, while concrete tree members outside
these subsets are not read. -/
theorem c2_reads_fixed_subset :
    (∀ p, readsSongPath p = true → inSongDataTree p = true) ∧
    (∀ p, readsLogPath p = true → inLogDataTree p = true) ∧
    inSongDataTree ["song-data", "A", "B", "C", "TRABCAJ128F42A0000.json"] = true ∧
    readsSongPath ["song-data", "A", "B", "C", "TRABCAJ128F42A0000.json"] = false ∧
    inLogDataTree ["log_data", "2018", "11", "2018-11-09-events.json"] = true ∧
    readsLogPath ["log_data", "2018", "11", "2018-11-09-events.json"] = false := by
  refine ⟨?_, ?_, by decide, by decide, by decide, by decide⟩
  · intro p hp
    rcases p with _ | ⟨d0, _ | ⟨d1, _ | ⟨d2, _ | ⟨d3, _ | ⟨f, _ | ⟨g, rest⟩⟩⟩⟩⟩⟩ <;>
      simp_all [readsSongPath, inSongDataTree]
  · intro p hp
    simp only [readsLogPath, beq_iff_eq] at hp
    subst hp
    decide

/-- Closed instance of `c2_reads_fixed_subset`: a file the song glob does
read lies in the song-data tree. -/
theorem c2_reads_fixed_subset_witness :
    inSongDataTree ["song-data", "A", "A", "A", "TRAAAAK128F9318786.json"] = true :=
  c2_reads_fixed_subset.1 ["song-data", "A", "A", "A", "TRAAAAK128F9318786.json"]
    (by decide)

end Etl
